import Mathlib

/-!
Shallow embedding of the "Noticed" Twitter-reply bot core:
the deduplication state store (src/state_manager.py), the per-item
reply dispatch and iteration engine (src/bot.py, Bot.run_iteration),
and the content normalizer (src/explain_tweet.py, main / get_media_urls).

Python values that may be `str` or `int` are modelled by `PyVal`;
Python's `str()` conversion is `pyStr`, with a self-contained decimal
renderer `natStr` for naturals (kernel-reducible, fuel-based).
The Python in-memory `set` of processed ids is modelled as a `List String`
(membership is the only observer used by the code; `set.pop()`, which
removes an arbitrary member, is modelled as removing the head).
-/

namespace Noticed

/-- Decimal digit character, as produced by Python's `str` for digits 0-9.
Matches `Nat.digitChar` on inputs below 10. -/
def digitChar (d : Nat) : Char :=
  if d = 0 then '0' else if d = 1 then '1' else if d = 2 then '2'
  else if d = 3 then '3' else if d = 4 then '4' else if d = 5 then '5'
  else if d = 6 then '6' else if d = 7 then '7' else if d = 8 then '8'
  else if d = 9 then '9' else '*'

/-- Inverse of `digitChar` on decimal digits; 10 on anything else. -/
def digitVal (c : Char) : Nat :=
  if c = '0' then 0 else if c = '1' then 1 else if c = '2' then 2
  else if c = '3' then 3 else if c = '4' then 4 else if c = '5' then 5
  else if c = '6' then 6 else if c = '7' then 7 else if c = '8' then 8
  else if c = '9' then 9 else 10

/-- Fuel-based most-significant-first decimal digit accumulation:
`natStrGo fuel n acc` prepends the decimal digits of `n` to `acc`
(complete whenever `n ≤ fuel`). -/
def natStrGo : Nat → Nat → List Char → List Char
  | 0, _, acc => acc
  | fuel + 1, n, acc =>
    if n = 0 then acc else natStrGo fuel (n / 10) (digitChar (n % 10) :: acc)

/-- Python's `str` on a non-negative integer: standard decimal rendering. -/
def natStr (n : Nat) : String :=
  if n = 0 then "0" else String.mk (natStrGo n n [])

/-- A Python value that is either a `str` or an `int`
(the state store accepts both spellings of an identifier). -/
inductive PyVal where
  | pstr (s : String)
  | pint (n : Int)
  deriving DecidableEq, Repr

/-- Python's `str()` applied to a `str`-or-`int` value. -/
def pyStr : PyVal → String
  | .pstr s => s
  | .pint n => if n < 0 then "-" ++ natStr n.natAbs else natStr n.toNat

/-- Content of the durable state file, as far as the loader distinguishes it:
missing file, whitespace-only file, invalid JSON, a JSON value that is not a
list, or a JSON list whose entries are strings, ints, or JSON null. -/
inductive FileContent where
  | absent
  | blank
  | invalidJson
  | jsonNonList
  | jsonList (items : List (Option PyVal))
  deriving DecidableEq, Repr

/-- The relevant file-system state around the state file: the content found at
the state-file path, and the other paths in its directory (used for backup-name
collision checks), each with their content. -/
structure FileSys where
  state_file : FileContent
  others : List (String × FileContent)
  deriving DecidableEq, Repr

/-- src/state_manager.py `StateManager`: in-memory set of processed tweet ids
(modelled as a list, membership being the only observer), the capacity bound,
and the state-file path split as stem and suffix
(`Path.with_suffix` semantics need both parts). -/
structure StateManager where
  processed_ids : List String
  max_memory_size : Nat
  path_stem : String
  path_suffix : String
  deriving DecidableEq, Repr

/-- `StateManager.__init__`: empty set; a non-positive `max_memory_size`
is replaced by the default 10000. -/
def StateManager.init (stem suffix : String) (max_memory_size : Int) : StateManager :=
  { processed_ids := []
    max_memory_size := if max_memory_size ≤ 0 then 10000 else max_memory_size.toNat
    path_stem := stem
    path_suffix := suffix }

/-- `StateManager.is_processed`: `str(tweet_id) in self.processed_ids`. -/
def StateManager.is_processed (sm : StateManager) (tweet_id : PyVal) : Bool :=
  sm.processed_ids.contains (pyStr tweet_id)

/-- `StateManager.mark_processed`: `None` is ignored; the id is converted to a
string; adding an already-present id is a no-op; before inserting a new id into
a set already at (or above) capacity, one arbitrary member is removed
(`set.pop()`, modelled as removing the head of the list). -/
def StateManager.mark_processed (sm : StateManager) (tweet_id : Option PyVal) : StateManager :=
  match tweet_id with
  | none => sm
  | some v =>
    let s := pyStr v
    if sm.processed_ids.contains s then sm
    else
      let base :=
        if sm.max_memory_size ≤ sm.processed_ids.length then sm.processed_ids.tail
        else sm.processed_ids
      { sm with processed_ids := s :: base }

/-- The list of ids `StateManager.save` writes: the set sorted
(`sorted([str(id_val) for id_val in self.processed_ids])`, where all stored ids
are already strings), then trimmed to the last `max_memory_size` entries when
over the limit. The comparator is the total lexicographic order on strings. -/
def StateManager.save_ids (sm : StateManager) : List String :=
  let ids := sm.processed_ids.mergeSort (fun a b => !decide (b < a))
  if sm.max_memory_size < ids.length then ids.drop (ids.length - sm.max_memory_size) else ids

/-- `StateManager.save` (successful path): the JSON list of string ids written
via write-temp-then-atomic-rename. -/
def StateManager.save (sm : StateManager) : FileContent :=
  .jsonList ((sm.save_ids).map (fun s => some (.pstr s)))

/-- The n-th backup-name candidate tried by `StateManager._backup_corrupt_file`:
`file_path.with_suffix(f"{file_path.suffix}.{reason}.bak")` first, then
`file_path.with_suffix(f"{file_path.suffix}.{reason}_{counter}.bak")`
for counter = 1, 2, ... -/
def backupCandidate (stem suffix reason : String) : Nat → String
  | 0 => stem ++ suffix ++ "." ++ reason ++ ".bak"
  | k + 1 => stem ++ suffix ++ "." ++ reason ++ "_" ++ natStr (k + 1) ++ ".bak"

/-- The `while backup_path.exists()` loop of `_backup_corrupt_file`, with fuel
(one more than the number of existing paths always suffices, candidates being
pairwise distinct). -/
def findBackupGo (stem suffix reason : String) (existing : List String) :
    Nat → Nat → String
  | 0, n => backupCandidate stem suffix reason n
  | fuel + 1, n =>
    if backupCandidate stem suffix reason n ∈ existing
    then findBackupGo stem suffix reason existing fuel (n + 1)
    else backupCandidate stem suffix reason n

/-- The fresh backup name chosen by `_backup_corrupt_file`. -/
def findBackupName (stem suffix reason : String) (existing : List String) : String :=
  findBackupGo stem suffix reason existing (existing.length + 1) 0

/-- `StateManager._backup_corrupt_file` (successful rename path): nothing to do
when the state file is absent; otherwise the state file is renamed to a fresh
backup name — its content is preserved under the new name, never deleted. -/
def StateManager.backup_corrupt_file (sm : StateManager) (fs : FileSys) (reason : String) :
    FileSys :=
  match fs.state_file with
  | .absent => fs
  | c =>
    let name := findBackupName sm.path_stem sm.path_suffix reason (fs.others.map Prod.fst)
    { state_file := .absent, others := (name, c) :: fs.others }

/-- `StateManager.load`: missing or empty file starts empty; invalid JSON backs
up the file under reason `json_decode_error` and starts empty; a non-list JSON
value backs up under reason `invalid_format` and starts empty; a JSON list is
filtered of nulls, converted to strings, deduplicated (set comprehension),
sorted, and trimmed to the last `max_memory_size` entries. -/
def StateManager.load (sm : StateManager) (fs : FileSys) : StateManager × FileSys :=
  match fs.state_file with
  | .absent => ({ sm with processed_ids := [] }, fs)
  | .blank => ({ sm with processed_ids := [] }, fs)
  | .invalidJson =>
    ({ sm with processed_ids := [] }, sm.backup_corrupt_file fs "json_decode_error")
  | .jsonNonList =>
    ({ sm with processed_ids := [] }, sm.backup_corrupt_file fs "invalid_format")
  | .jsonList items =>
    let valid_ids := ((items.filterMap id).map pyStr).dedup
    let sorted_ids := valid_ids.mergeSort (fun a b => !decide (b < a))
    ({ sm with
        processed_ids := sorted_ids.drop (sorted_ids.length - sm.max_memory_size) }, fs)

/-! ## Timeline items and the content normalizer (src/explain_tweet.py) -/

/-- One entry of a tweet's `media` list; only `type` and `media_url_https`
are consumed, via `getattr` with default `None`, so both may be missing. -/
structure MediaItem where
  type : Option String
  media_url_https : Option String
  deriving DecidableEq, Repr

/-- The embedded retweeted/quoted original: only `text` and `media`
are consumed, both possibly missing. -/
structure InnerStatus where
  text : Option String
  media : Option (List MediaItem)
  deriving DecidableEq, Repr

/-- A timeline item, with exactly the attributes the core consumes:
`id`, `text`, `media`, `retweeted_status`, `quoted_status`, and whether the
object carries a callable `reply` method (checked by `Bot.run_iteration`). -/
structure Tweet where
  id : PyVal
  text : Option String
  media : Option (List MediaItem)
  retweeted_status : Option InnerStatus
  quoted_status : Option InnerStatus
  has_reply_method : Bool
  deriving DecidableEq, Repr

/-- src/explain_tweet.py `get_media_urls`: URLs of the photo entries of a
media list; a missing or empty list yields no URLs, a non-photo entry or a
missing/empty (falsy) URL is skipped. -/
def get_media_urls (media_list : Option (List MediaItem)) : List String :=
  match media_list with
  | none => []
  | some l =>
    l.filterMap (fun m =>
      match m.type, m.media_url_https with
      | some "photo", some url => if url = "" then none else some url
      | _, _ => none)

/-- Content normalization, src/explain_tweet.py main lines 226-261:
start from the item's own text and photo URLs; a native retweet replaces the
text with the original's text; otherwise a quote tweet combines commenter and
quoted text as two labeled segments; in both cases the original's media is
consulted only when the item itself contributed no image URLs. -/
def normalize (t : Tweet) : String × List String :=
  let text0 := t.text.getD ""
  let imgs0 := get_media_urls t.media
  match t.retweeted_status with
  | some rt =>
    (rt.text.getD "", if imgs0.isEmpty then get_media_urls rt.media else imgs0)
  | none =>
    match t.quoted_status with
    | some qt =>
      ("Commenter\x27s Text: " ++ text0 ++ "\n" ++ "Original Quoted Text: " ++ (qt.text.getD ""),
       if imgs0.isEmpty then get_media_urls qt.media else imgs0)
    | none => (text0, imgs0)

/-! ## Reply dispatch and the iteration engine (src/bot.py, Bot.run_iteration) -/

/-- The truth value of Python's `not tweet_text.strip()`:
the text is empty or consists solely of whitespace. -/
def pyBlank (s : String) : Bool :=
  s.data.all Char.isWhitespace

/-- Why an item was skipped without a post. -/
inductive SkipReason where
  | already_handled
  | no_content
  | generation_empty
  | no_reply_method
  deriving DecidableEq, Repr

/-- How a posting attempt failed. -/
inductive FailReason where
  | not_found
  | forbidden
  | transient
  | unexpected
  deriving DecidableEq, Repr

/-- Terminal disposition of one item in one dispatch. -/
inductive Outcome where
  | skipped (r : SkipReason)
  | replied
  | failed (r : FailReason)
  deriving DecidableEq, Repr

/-- What `tweet.reply(...)` does when invoked: succeeds, raises twikit
`NotFound`, raises `Forbidden`, raises a generic `TwitterException`, or raises
any other exception. -/
inductive PostOutcome where
  | success
  | notFound
  | forbidden
  | twitterError
  | otherError
  deriving DecidableEq, Repr

/-- The external collaborators' behaviour for one item:
what `gemini_client.generate_reply` returns (`none` models Python `None`),
and what the posting call does if reached. -/
structure DispatchEnv where
  gemini_reply : Option String
  post_outcome : PostOutcome
  deriving DecidableEq, Repr

/-- Result of dispatching one item: its outcome, the state-store state after
the item, and whether the reply-generation and posting collaborators were
invoked. -/
structure DispatchResult where
  outcome : Outcome
  sm : StateManager
  generated : Bool
  posted : Bool
  deriving DecidableEq, Repr

/-- The per-item body of `Bot.run_iteration` (src/bot.py lines 147-245),
for a well-formed `Tweet` object and with twikit's `NotFound` importable
(the shipped configuration): skip already-processed ids untouched; mark and
skip empty/whitespace text; invoke generation, marking and skipping an empty
generation; require a callable `reply`; then post, classifying `NotFound` and
`Forbidden` as permanently handled failures while a generic
`TwitterException` or any unexpected error leaves the id unmarked. -/
def dispatch (sm : StateManager) (tweet : Tweet) (env : DispatchEnv) : DispatchResult :=
  let tweet_id := pyStr tweet.id
  if sm.is_processed (.pstr tweet_id) then
    { outcome := .skipped .already_handled, sm := sm, generated := false, posted := false }
  else
    let tweet_text := tweet.text.getD ""
    if pyBlank tweet_text then
      { outcome := .skipped .no_content
        sm := sm.mark_processed (some (.pstr tweet_id)), generated := false, posted := false }
    else if env.gemini_reply.getD "" = "" then
      { outcome := .skipped .generation_empty
        sm := sm.mark_processed (some (.pstr tweet_id)), generated := true, posted := false }
    else if !tweet.has_reply_method then
      { outcome := .skipped .no_reply_method
        sm := sm.mark_processed (some (.pstr tweet_id)), generated := true, posted := false }
    else
      match env.post_outcome with
      | .success =>
        { outcome := .replied
          sm := sm.mark_processed (some (.pstr tweet_id)), generated := true, posted := true }
      | .notFound =>
        { outcome := .failed .not_found
          sm := sm.mark_processed (some (.pstr tweet_id)), generated := true, posted := true }
      | .forbidden =>
        { outcome := .failed .forbidden
          sm := sm.mark_processed (some (.pstr tweet_id)), generated := true, posted := true }
      | .twitterError =>
        { outcome := .failed .transient, sm := sm, generated := true, posted := true }
      | .otherError =>
        { outcome := .failed .unexpected, sm := sm, generated := true, posted := true }

/-- The processing loop of `Bot.run_iteration` over the batch already put in
chronological (oldest-first) order, i.e. over `reversed(tweets)`: dispatch each
item and, after a successful reply that is not the last item of the batch,
sleep once for a duration drawn from the configured delay window. Returns the
final state-store state, the outcome of every item in order, and the number of
pacing sleeps performed. -/
def run_iteration (sm : StateManager) :
    List (Tweet × DispatchEnv) → StateManager × List Outcome × Nat
  | [] => (sm, [], 0)
  | (t, e) :: rest =>
    let r := dispatch sm t e
    let (sm', outs, sleeps) := run_iteration r.sm rest
    (sm', r.outcome :: outs,
      (if r.outcome = .replied ∧ rest ≠ [] then 1 else 0) + sleeps)

/-! ## Concrete fixtures used to evaluate the model on sample inputs -/

/-- Decimal value of a most-significant-first digit string; verification
helper inverting `natStrGo`. -/
def valOf : List Char → Nat
  | [] => 0
  | c :: cs => digitVal c * 10 ^ cs.length + valOf cs

/-- A fresh state manager with capacity 10 over path `state.json`. -/
def exSm : StateManager := StateManager.init "state" ".json" 10

/-- A plain original tweet with the given id and text. -/
def exTweet (i txt : String) : Tweet :=
  { id := .pstr i, text := some txt, media := none, retweeted_status := none,
    quoted_status := none, has_reply_method := true }

/-- Collaborator behaviour: generation returns "ok", posting succeeds. -/
def exEnvSuccess : DispatchEnv := { gemini_reply := some "ok", post_outcome := .success }

/-- A batch of three distinct plain tweets, all set up to be replied to. -/
def exBatch3 : List (Tweet × DispatchEnv) :=
  [(exTweet "t1" "hello one", exEnvSuccess),
   (exTweet "t2" "hello two", exEnvSuccess),
   (exTweet "t3" "hello three", exEnvSuccess)]

/-- A photo media entry with a URL. -/
def exPhoto : MediaItem := { type := some "photo", media_url_https := some "https://img/1.jpg" }

/-- A tweet whose text is empty but which carries one image. -/
def exEmptyTextWithImage : Tweet :=
  { id := .pstr "77", text := some "", media := some [exPhoto], retweeted_status := none,
    quoted_status := none, has_reply_method := true }

/-- A quoted original with text "gm too" and one image. -/
def exQuoted : InnerStatus := { text := some "gm too", media := some [exPhoto] }

/-- A quote tweet: commenter text "gm" over `exQuoted`, no own media. -/
def exQuoteTweet : Tweet :=
  { id := .pstr "q1", text := some "gm", media := none, retweeted_status := none,
    quoted_status := some exQuoted, has_reply_method := true }

/-- A reposted original with text "hello" and one image. -/
def exOriginal : InnerStatus := { text := some "hello", media := some [exPhoto] }

/-- A native retweet wrapping `exOriginal`, with no wrapper-level media. -/
def exRepostTweet : Tweet :=
  { id := .pstr "r1", text := some "RT hello", media := none,
    retweeted_status := some exOriginal, quoted_status := none, has_reply_method := true }

/-- A state manager that already processed id "5". -/
def exSmP : StateManager :=
  { processed_ids := ["5"], max_memory_size := 10, path_stem := "state", path_suffix := ".json" }

/-- A state manager holding two ids with room to spare (capacity 3). -/
def exSmTwo : StateManager :=
  { processed_ids := ["b", "a"], max_memory_size := 3, path_stem := "state", path_suffix := ".json" }

/-- A state manager at capacity (two ids, capacity 2). -/
def exSmFull : StateManager :=
  { processed_ids := ["x1", "x2"], max_memory_size := 2, path_stem := "state", path_suffix := ".json" }

/-- A file system whose state file holds invalid JSON and whose directory
holds no other files. -/
def exFsBad : FileSys := { state_file := .invalidJson, others := [] }

/-! ## Lemmas: decimal rendering -/

theorem digitVal_digitChar {d : Nat} (h : d < 10) : digitVal (digitChar d) = d := by
  interval_cases d <;> rfl

theorem valOf_natStrGo :
    ∀ (fuel n : Nat) (acc : List Char), n ≤ fuel →
      valOf (natStrGo fuel n acc) = n * 10 ^ acc.length + valOf acc := by
  intro fuel
  induction fuel with
  | zero =>
    intro n acc h
    have hn : n = 0 := Nat.le_zero.mp h
    simp [natStrGo, hn]
  | succ f ih =>
    intro n acc h
    by_cases h0 : n = 0
    · simp [natStrGo, h0]
    · have hdiv : n / 10 < n := Nat.div_lt_self (Nat.pos_of_ne_zero h0) (by norm_num)
      have hle : n / 10 ≤ f := by omega
      rw [natStrGo, if_neg h0, ih (n / 10) _ hle]
      simp only [valOf, List.length_cons]
      rw [digitVal_digitChar (Nat.mod_lt n (by norm_num))]
      have hmod := Nat.div_add_mod n 10
      calc n / 10 * 10 ^ (acc.length + 1) + (n % 10 * 10 ^ acc.length + valOf acc)
          = (n / 10 * 10 + n % 10) * 10 ^ acc.length + valOf acc := by ring
        _ = n * 10 ^ acc.length + valOf acc := by
            rw [show n / 10 * 10 + n % 10 = n by omega]

theorem valOf_natStr (n : Nat) : valOf (natStr n).data = n := by
  by_cases h : n = 0
  · subst h; decide
  · rw [natStr, if_neg h]
    have := valOf_natStrGo n n [] (le_refl n)
    simpa [valOf] using this

theorem natStr_injective : Function.Injective natStr := by
  intro a b h
  have := congrArg (fun s => valOf s.data) h
  simpa [valOf_natStr] using this

/-! ## Lemmas: backup-name candidates are pairwise distinct and the
collision loop picks a fresh name -/

theorem sdata_append (a b : String) : (a ++ b).data = a.data ++ b.data := by
  cases a; cases b; rfl

theorem string_eq_of_data_eq {a b : String} (h : a.data = b.data) : a = b := by
  cases a; cases b; exact congrArg String.mk h

theorem backupCandidate_zero_data (s f r : String) :
    (backupCandidate s f r 0).data =
      s.data ++ (f.data ++ ('.' :: (r.data ++ ['.', 'b', 'a', 'k']))) := by
  simp [backupCandidate, sdata_append]

theorem backupCandidate_succ_data (s f r : String) (k : Nat) :
    (backupCandidate s f r (k + 1)).data =
      s.data ++ (f.data ++ ('.' :: (r.data ++
        ('_' :: ((natStr (k + 1)).data ++ ['.', 'b', 'a', 'k']))))) := by
  simp [backupCandidate, sdata_append]

theorem backupCandidate_injective (s f r : String) :
    Function.Injective (backupCandidate s f r) := by
  intro j k h
  have hd := congrArg String.data h
  match j, k with
  | 0, 0 => rfl
  | 0, k + 1 =>
    rw [backupCandidate_zero_data, backupCandidate_succ_data] at hd
    simp at hd
  | j + 1, 0 =>
    rw [backupCandidate_succ_data, backupCandidate_zero_data] at hd
    simp at hd
  | j + 1, k + 1 =>
    rw [backupCandidate_succ_data, backupCandidate_succ_data] at hd
    simp only [List.append_cancel_left_eq, List.cons.injEq, true_and] at hd
    have hdata : (natStr (j + 1)).data = (natStr (k + 1)).data :=
      List.append_cancel_right hd
    have := natStr_injective (string_eq_of_data_eq hdata)
    omega

theorem findBackupGo_shape (s f r : String) (existing : List String) :
    ∀ (fuel n : Nat), ∃ m, n ≤ m ∧
      findBackupGo s f r existing fuel n = backupCandidate s f r m := by
  intro fuel
  induction fuel with
  | zero => intro n; exact ⟨n, le_refl n, rfl⟩
  | succ fl ih =>
    intro n
    by_cases hc : backupCandidate s f r n ∈ existing
    · obtain ⟨m, hm, heq⟩ := ih (n + 1)
      exact ⟨m, by omega, by rw [findBackupGo, if_pos hc]; exact heq⟩
    · exact ⟨n, le_refl n, by rw [findBackupGo, if_neg hc]⟩

theorem findBackupGo_not_mem (s f r : String) (existing : List String) :
    ∀ (fuel n : Nat),
      (∃ k, k < fuel ∧ backupCandidate s f r (n + k) ∉ existing) →
      findBackupGo s f r existing fuel n ∉ existing := by
  intro fuel
  induction fuel with
  | zero => intro n ⟨k, hk, _⟩; omega
  | succ fl ih =>
    intro n ⟨k, hk, hfree⟩
    by_cases hc : backupCandidate s f r n ∈ existing
    · rw [findBackupGo, if_pos hc]
      apply ih
      have hk0 : k ≠ 0 := by
        intro h0
        rw [h0, Nat.add_zero] at hfree
        exact hfree hc
      exact ⟨k - 1, by omega, by rw [show n + 1 + (k - 1) = n + k by omega]; exact hfree⟩
    · rw [findBackupGo, if_neg hc]
      exact hc

theorem exists_free_candidate (s f r : String) (existing : List String) (n : Nat) :
    ∃ k, k < existing.length + 1 ∧ backupCandidate s f r (n + k) ∉ existing := by
  by_contra hcon
  push_neg at hcon
  have hinj : Function.Injective (fun k => backupCandidate s f r (n + k)) := by
    intro a b hab
    have := backupCandidate_injective s f r hab
    omega
  have hnd : ((List.range (existing.length + 1)).map
      (fun k => backupCandidate s f r (n + k))).Nodup :=
    (List.nodup_range _).map hinj
  have hsub : ((List.range (existing.length + 1)).map
      (fun k => backupCandidate s f r (n + k))).toFinset ⊆ existing.toFinset := by
    intro x hx
    rw [List.mem_toFinset] at hx ⊢
    obtain ⟨k, hk, rfl⟩ := List.mem_map.mp hx
    exact hcon k (List.mem_range.mp hk)
  have h1 := List.toFinset_card_of_nodup hnd
  have h2 := Finset.card_le_card hsub
  have h3 := existing.toFinset_card_le
  simp only [List.length_map, List.length_range] at h1
  omega

theorem findBackupName_not_mem (s f r : String) (existing : List String) :
    findBackupName s f r existing ∉ existing := by
  apply findBackupGo_not_mem
  obtain ⟨k, hk, hfree⟩ := exists_free_candidate s f r existing 0
  exact ⟨k, by omega, by simpa using hfree⟩

theorem findBackupName_shape (s f r : String) (existing : List String) :
    ∃ k, findBackupName s f r existing = backupCandidate s f r k := by
  obtain ⟨m, _, heq⟩ := findBackupGo_shape s f r existing (existing.length + 1) 0
  exact ⟨m, heq⟩

theorem findBackupName_zero (s f r : String) (existing : List String)
    (h : backupCandidate s f r 0 ∉ existing) :
    findBackupName s f r existing = backupCandidate s f r 0 := by
  rw [findBackupName, findBackupGo, if_neg h]

/-! ## Lemmas: the state store -/

theorem contains_iff_mem {l : List String} {a : String} : l.contains a = true ↔ a ∈ l := by
  simp

theorem mark_processed_max (sm : StateManager) (x : Option PyVal) :
    (sm.mark_processed x).max_memory_size = sm.max_memory_size := by
  rcases x with _ | v
  · rfl
  · rw [StateManager.mark_processed]
    dsimp only
    split <;> rfl

theorem mark_processed_mem_self (sm : StateManager) (v : PyVal) :
    pyStr v ∈ (sm.mark_processed (some v)).processed_ids := by
  rw [StateManager.mark_processed]
  dsimp only
  split
  · exact contains_iff_mem.mp (by assumption)
  · exact List.mem_cons_self _ _

theorem mark_processed_noop (sm : StateManager) (v : PyVal)
    (h : sm.is_processed v = true) : sm.mark_processed (some v) = sm := by
  rw [StateManager.mark_processed]
  dsimp only
  rw [if_pos (show sm.processed_ids.contains (pyStr v) = true from h)]

theorem mark_processed_length_le (sm : StateManager) (x : Option PyVal) :
    (sm.mark_processed x).processed_ids.length ≤ sm.processed_ids.length + 1 := by
  rcases x with _ | v
  · simp [StateManager.mark_processed]
  · rw [StateManager.mark_processed]
    dsimp only
    split
    · omega
    · split <;> simp [List.length_tail]

theorem mark_processed_length_le_max (sm : StateManager) (x : Option PyVal)
    (hpos : 0 < sm.max_memory_size)
    (h : sm.processed_ids.length ≤ sm.max_memory_size) :
    (sm.mark_processed x).processed_ids.length ≤ sm.max_memory_size := by
  rcases x with _ | v
  · exact h
  · rw [StateManager.mark_processed]
    dsimp only
    split
    · exact h
    · split
      · next hfull =>
        simp only [List.length_cons, List.length_tail]
        omega
      · next hroom =>
        simp only [List.length_cons]
        omega

theorem mark_processed_mem_of_mem (sm : StateManager) (x : String) (y : Option PyVal)
    (hmem : x ∈ sm.processed_ids)
    (hlt : sm.processed_ids.length < sm.max_memory_size) :
    x ∈ (sm.mark_processed y).processed_ids := by
  rcases y with _ | v
  · exact hmem
  · rw [StateManager.mark_processed]
    dsimp only
    split
    · exact hmem
    · rw [if_neg (by omega)]
      exact List.mem_cons_of_mem _ hmem

/-! ## Lemmas: the reply dispatcher and the iteration loop -/

theorem dispatch_sm_cases (sm : StateManager) (t : Tweet) (e : DispatchEnv) :
    (dispatch sm t e).sm = sm ∨
    (dispatch sm t e).sm = sm.mark_processed (some (.pstr (pyStr t.id))) := by
  unfold dispatch
  dsimp only
  split
  · exact Or.inl rfl
  · split
    · exact Or.inr rfl
    · split
      · exact Or.inr rfl
      · split
        · exact Or.inr rfl
        · split <;> first | exact Or.inl rfl | exact Or.inr rfl

theorem dispatch_max (sm : StateManager) (t : Tweet) (e : DispatchEnv) :
    (dispatch sm t e).sm.max_memory_size = sm.max_memory_size := by
  rcases dispatch_sm_cases sm t e with h | h <;> rw [h]
  exact mark_processed_max sm _

theorem dispatch_length_le (sm : StateManager) (t : Tweet) (e : DispatchEnv) :
    (dispatch sm t e).sm.processed_ids.length ≤ sm.processed_ids.length + 1 := by
  rcases dispatch_sm_cases sm t e with h | h <;> rw [h]
  · omega
  · exact mark_processed_length_le sm _

theorem dispatch_mem_of_mem (sm : StateManager) (t : Tweet) (e : DispatchEnv) (x : String)
    (hmem : x ∈ sm.processed_ids)
    (hlt : sm.processed_ids.length < sm.max_memory_size) :
    x ∈ (dispatch sm t e).sm.processed_ids := by
  rcases dispatch_sm_cases sm t e with h | h <;> rw [h]
  · exact hmem
  · exact mark_processed_mem_of_mem sm x _ hmem hlt

theorem dispatch_of_is_processed (sm : StateManager) (t : Tweet) (e : DispatchEnv)
    (h : sm.is_processed (.pstr (pyStr t.id)) = true) :
    dispatch sm t e =
      { outcome := .skipped .already_handled, sm := sm, generated := false, posted := false } := by
  unfold dispatch
  dsimp only
  rw [if_pos h]

theorem dispatch_replied_marked (sm : StateManager) (t : Tweet) (e : DispatchEnv)
    (h : (dispatch sm t e).outcome = .replied) :
    pyStr t.id ∈ (dispatch sm t e).sm.processed_ids := by
  unfold dispatch at h ⊢
  dsimp only at h ⊢
  split at h
  · simp at h
  · split at h
    · simp at h
    · split at h
      · simp at h
      · split at h
        · simp at h
        · split at h <;> simp_all
          exact mark_processed_mem_self sm (.pstr (pyStr t.id))

theorem run_iteration_max (sm : StateManager) (steps : List (Tweet × DispatchEnv)) :
    (run_iteration sm steps).1.max_memory_size = sm.max_memory_size := by
  induction steps generalizing sm with
  | nil => rfl
  | cons p rest ih =>
    obtain ⟨t, e⟩ := p
    simp only [run_iteration]
    rw [ih]
    exact dispatch_max sm t e

theorem run_iteration_outs_length (sm : StateManager)
    (steps : List (Tweet × DispatchEnv)) :
    (run_iteration sm steps).2.1.length = steps.length := by
  induction steps generalizing sm with
  | nil => rfl
  | cons p rest ih =>
    obtain ⟨t, e⟩ := p
    simp only [run_iteration, List.length_cons]
    rw [ih]

theorem run_iteration_sm_length (sm : StateManager)
    (steps : List (Tweet × DispatchEnv)) :
    (run_iteration sm steps).1.processed_ids.length ≤
      sm.processed_ids.length + steps.length := by
  induction steps generalizing sm with
  | nil => simp [run_iteration]
  | cons p rest ih =>
    obtain ⟨t, e⟩ := p
    simp only [run_iteration, List.length_cons]
    have h1 := ih (dispatch sm t e).sm
    have h2 := dispatch_length_le sm t e
    omega

theorem run_iteration_mem (sm : StateManager) (steps : List (Tweet × DispatchEnv))
    (x : String) (hmem : x ∈ sm.processed_ids)
    (hcap : sm.processed_ids.length + steps.length ≤ sm.max_memory_size) :
    x ∈ (run_iteration sm steps).1.processed_ids := by
  induction steps generalizing sm with
  | nil => simpa [run_iteration] using hmem
  | cons p rest ih =>
    obtain ⟨t, e⟩ := p
    simp only [run_iteration]
    have hlt : sm.processed_ids.length < sm.max_memory_size := by
      simp only [List.length_cons] at hcap; omega
    apply ih
    · exact dispatch_mem_of_mem sm t e x hmem hlt
    · have h1 := dispatch_length_le sm t e
      have h2 := dispatch_max sm t e
      simp only [List.length_cons] at hcap
      omega

/-! ## Lemmas: save/load round trip and pacing count -/

theorem save_ids_of_le (sm : StateManager)
    (hlen : sm.processed_ids.length ≤ sm.max_memory_size) :
    sm.save_ids = sm.processed_ids.mergeSort (fun a b => !decide (b < a)) := by
  simp only [StateManager.save_ids]
  rw [if_neg (by simp only [List.length_mergeSort]; omega)]

theorem load_save_mem (sm sm2 : StateManager) (others : List (String × FileContent))
    (hmax : sm2.max_memory_size = sm.max_memory_size)
    (hlen : sm.processed_ids.length ≤ sm.max_memory_size) (x : String) :
    x ∈ (sm2.load ⟨sm.save, others⟩).1.processed_ids ↔ x ∈ sm.processed_ids := by
  have hids : ∀ L : List String,
      ((L.map (fun s => some (PyVal.pstr s))).filterMap id).map pyStr = L := by
    intro L
    induction L with
    | nil => rfl
    | cons a l ihl =>
      show List.map pyStr
          (PyVal.pstr a :: List.filterMap id (List.map (fun s => some (PyVal.pstr s)) l)) =
        a :: l
      rw [List.map_cons, ihl]
      rfl
  simp only [StateManager.save, StateManager.load]
  rw [hids]
  have hlen2 : ((sm.save_ids).dedup.mergeSort (fun a b => !decide (b < a))).length ≤
      sm2.max_memory_size := by
    have h1 : (sm.save_ids).dedup.length ≤ (sm.save_ids).length :=
      (sm.save_ids).dedup_sublist.length_le
    have h2 : (sm.save_ids).length = sm.processed_ids.length := by
      rw [save_ids_of_le sm hlen, List.length_mergeSort]
    simp only [List.length_mergeSort]
    omega
  rw [show ((sm.save_ids).dedup.mergeSort (fun a b => !decide (b < a))).length -
      sm2.max_memory_size = 0 by omega]
  rw [List.drop_zero]
  rw [List.mem_mergeSort, List.mem_dedup, save_ids_of_le sm hlen, List.mem_mergeSort]

theorem run_iteration_sleeps_eq (sm : StateManager) (steps : List (Tweet × DispatchEnv)) :
    (run_iteration sm steps).2.2 =
      (run_iteration sm steps).2.1.dropLast.countP (fun o => decide (o = .replied)) := by
  induction steps generalizing sm with
  | nil => rfl
  | cons p rest ih =>
    obtain ⟨t, e⟩ := p
    cases rest with
    | nil => simp [run_iteration]
    | cons q rest' =>
      have ihd := ih (dispatch sm t e).sm
      simp only [run_iteration] at ihd ⊢
      rw [List.dropLast_cons₂, List.countP_cons, ← ihd]
      by_cases hr : (dispatch sm t e).outcome = .replied <;> (simp [hr]; try omega)

theorem dispatch_post_eq (sm : StateManager) (t : Tweet) (reply : String) (po : PostOutcome)
    (hp : sm.is_processed (.pstr (pyStr t.id)) = false)
    (hb : pyBlank (t.text.getD "") = false)
    (hr : reply ≠ "")
    (hm : t.has_reply_method = true) :
    dispatch sm t ⟨some reply, po⟩ =
      match po with
      | .success =>
        { outcome := .replied, sm := sm.mark_processed (some (.pstr (pyStr t.id))),
          generated := true, posted := true }
      | .notFound =>
        { outcome := .failed .not_found, sm := sm.mark_processed (some (.pstr (pyStr t.id))),
          generated := true, posted := true }
      | .forbidden =>
        { outcome := .failed .forbidden, sm := sm.mark_processed (some (.pstr (pyStr t.id))),
          generated := true, posted := true }
      | .twitterError =>
        { outcome := .failed .transient, sm := sm, generated := true, posted := true }
      | .otherError =>
        { outcome := .failed .unexpected, sm := sm, generated := true, posted := true } := by
  unfold dispatch
  dsimp only
  rw [if_neg (by simp [hp]), if_neg (by simp [hb]), if_neg (by simp [hr]), hm]
  simp

/-! ## Claim theorems -/

/-- C2: for every item whose identifier is already in the processed set,
dispatching it returns Skipped(already_handled) without invoking the
reply-generation or posting collaborators and without any state mutation. -/
theorem noticed_idempotent_skip (sm : StateManager) (t : Tweet) (e : DispatchEnv)
    (h : sm.is_processed (.pstr (pyStr t.id)) = true) :
    dispatch sm t e =
      { outcome := .skipped .already_handled, sm := sm,
        generated := false, posted := false } :=
  dispatch_of_is_processed sm t e h

/-- Witness for C2 at a concrete already-processed id. -/
theorem noticed_idempotent_skip_witness :
    exSmP.is_processed (.pstr (pyStr (exTweet "5" "hi").id)) = true ∧
    dispatch exSmP (exTweet "5" "hi") exEnvSuccess =
      { outcome := .skipped .already_handled, sm := exSmP,
        generated := false, posted := false } :=
  ⟨by decide, noticed_idempotent_skip exSmP (exTweet "5" "hi") exEnvSuccess (by decide)⟩

/-- C4: for an unprocessed item with usable text and generation, a NotFound or
Forbidden outcome from the posting collaborator marks the identifier handled
with outcome Failed(not_found)/Failed(forbidden), while a generic transient
Twitter API failure leaves the whole state untouched with Failed(transient). -/
theorem noticed_post_failure_classification (sm : StateManager) (t : Tweet) (reply : String)
    (hp : sm.is_processed (.pstr (pyStr t.id)) = false)
    (hb : pyBlank (t.text.getD "") = false)
    (hr : reply ≠ "")
    (hm : t.has_reply_method = true) :
    ((dispatch sm t ⟨some reply, .notFound⟩).outcome = .failed .not_found ∧
      (dispatch sm t ⟨some reply, .notFound⟩).sm.is_processed (.pstr (pyStr t.id)) = true) ∧
    ((dispatch sm t ⟨some reply, .forbidden⟩).outcome = .failed .forbidden ∧
      (dispatch sm t ⟨some reply, .forbidden⟩).sm.is_processed (.pstr (pyStr t.id)) = true) ∧
    ((dispatch sm t ⟨some reply, .twitterError⟩).outcome = .failed .transient ∧
      (dispatch sm t ⟨some reply, .twitterError⟩).sm = sm) := by
  have hmark : (sm.mark_processed (some (.pstr (pyStr t.id)))).is_processed
      (.pstr (pyStr t.id)) = true :=
    contains_iff_mem.mpr (mark_processed_mem_self sm (.pstr (pyStr t.id)))
  rw [dispatch_post_eq sm t reply .notFound hp hb hr hm,
    dispatch_post_eq sm t reply .forbidden hp hb hr hm,
    dispatch_post_eq sm t reply .twitterError hp hb hr hm]
  exact ⟨⟨rfl, hmark⟩, ⟨rfl, hmark⟩, rfl, rfl⟩

/-- Witness for C4 at a concrete unprocessed item, for all three failure kinds. -/
theorem noticed_post_failure_classification_witness :
    ((dispatch exSm (exTweet "n1" "hi") ⟨some "ok", .notFound⟩).outcome = .failed .not_found ∧
      (dispatch exSm (exTweet "n1" "hi") ⟨some "ok", .notFound⟩).sm.is_processed
        (.pstr (pyStr (exTweet "n1" "hi").id)) = true) ∧
    ((dispatch exSm (exTweet "n1" "hi") ⟨some "ok", .forbidden⟩).outcome = .failed .forbidden ∧
      (dispatch exSm (exTweet "n1" "hi") ⟨some "ok", .forbidden⟩).sm.is_processed
        (.pstr (pyStr (exTweet "n1" "hi").id)) = true) ∧
    ((dispatch exSm (exTweet "n1" "hi") ⟨some "ok", .twitterError⟩).outcome = .failed .transient ∧
      (dispatch exSm (exTweet "n1" "hi") ⟨some "ok", .twitterError⟩).sm = exSm) :=
  noticed_post_failure_classification exSm (exTweet "n1" "hi") "ok"
    (by decide) (by decide) (by decide) rfl

/-- C7 counterexample: a tweet with empty text but one image reference in its
normalized content is still dispatched as Skipped(no_content) — the dispatcher
in src/bot.py checks only the raw text, so "empty text AND no images" is not
the condition it implements. -/
theorem noticed_empty_content_counterexample :
    (normalize exEmptyTextWithImage).2 ≠ [] ∧
    (dispatch exSm exEmptyTextWithImage exEnvSuccess).outcome = .skipped .no_content ∧
    (dispatch exSm exEmptyTextWithImage exEnvSuccess).generated = false := by
  refine ⟨by decide, by decide, by decide⟩

/-- C7 amended: for an unprocessed item, the dispatcher marks it handled and
returns Skipped(no_content) without invoking reply generation exactly when the
item's text is empty or whitespace-only; image references are not consulted. -/
theorem noticed_empty_content_skip_amended (sm : StateManager) (t : Tweet) (e : DispatchEnv)
    (h : sm.is_processed (.pstr (pyStr t.id)) = false) :
    ((dispatch sm t e).outcome = .skipped .no_content ↔ pyBlank (t.text.getD "") = true) ∧
    (pyBlank (t.text.getD "") = true →
      dispatch sm t e =
        { outcome := .skipped .no_content,
          sm := sm.mark_processed (some (.pstr (pyStr t.id))),
          generated := false, posted := false }) := by
  unfold dispatch
  dsimp only
  rw [if_neg (by simp [h])]
  by_cases hb : pyBlank (t.text.getD "") = true
  · rw [if_pos hb]
    exact ⟨by simp [hb], fun _ => rfl⟩
  · rw [if_neg hb]
    refine ⟨?_, fun hcon => absurd hcon hb⟩
    simp only [hb, iff_false]
    split
    · simp
    · split
      · simp
      · split <;> simp

/-- Witness for C7's amended statement at a concrete empty-text tweet. -/
theorem noticed_empty_content_skip_amended_witness :
    exSm.is_processed (.pstr (pyStr (exTweet "w1" "").id)) = false ∧
    pyBlank ((exTweet "w1" "").text.getD "") = true ∧
    dispatch exSm (exTweet "w1" "") exEnvSuccess =
      { outcome := .skipped .no_content,
        sm := exSm.mark_processed (some (.pstr (pyStr (exTweet "w1" "").id))),
        generated := false, posted := false } :=
  ⟨by decide, by decide,
    (noticed_empty_content_skip_amended exSm (exTweet "w1" "") exEnvSuccess (by decide)).2
      (by decide)⟩

/-- C8: a quote-composite normalizes to the two labeled segments in
commenter-then-quoted order, a repost normalizes to the original's text, and in
both cases the wrapper's own image references take priority, the inner item's
images being used only when the wrapper contributes none. -/
theorem noticed_normalization_composites (t : Tweet) (rt qt : InnerStatus) :
    (t.retweeted_status = none → t.quoted_status = some qt →
      normalize t =
        ("Commenter\x27s Text: " ++ t.text.getD "" ++ "\n" ++
           "Original Quoted Text: " ++ qt.text.getD "",
         if (get_media_urls t.media).isEmpty then get_media_urls qt.media
         else get_media_urls t.media)) ∧
    (t.retweeted_status = some rt →
      normalize t =
        (rt.text.getD "",
         if (get_media_urls t.media).isEmpty then get_media_urls rt.media
         else get_media_urls t.media)) := by
  constructor
  · intro hrt hqt
    simp [normalize, hrt, hqt]
  · intro hrt
    simp [normalize, hrt]

/-- Witness for C8: the spec's concrete examples — a "gm"/"gm too" quote
composite, and a repost of "hello" with one original-level image and no
wrapper-level media. -/
theorem noticed_normalization_composites_witness :
    normalize exQuoteTweet =
      ("Commenter\x27s Text: gm\nOriginal Quoted Text: gm too", ["https://img/1.jpg"]) ∧
    normalize exRepostTweet = ("hello", ["https://img/1.jpg"]) :=
  ⟨((noticed_normalization_composites exQuoteTweet ⟨none, none⟩ exQuoted).1 rfl rfl).trans
      (by decide),
    ((noticed_normalization_composites exRepostTweet exOriginal ⟨none, none⟩).2 rfl).trans
      (by decide)⟩

/-- C1: once a dispatch of an identifier returns Replied, every later dispatch
of the same identifier within the run (here: after any further batch u2, with
enough capacity that no eviction can occur) does not invoke the posting
collaborator again — it is skipped as already handled. -/
theorem noticed_at_most_one_post (sm : StateManager)
    (u1 u2 : List (Tweet × DispatchEnv)) (ta tb : Tweet) (ea eb : DispatchEnv)
    (hcap : sm.processed_ids.length + (u1.length + 1 + u2.length) ≤ sm.max_memory_size)
    (hid : pyStr tb.id = pyStr ta.id)
    (hrep : (dispatch (run_iteration sm u1).1 ta ea).outcome = .replied) :
    (dispatch (run_iteration (dispatch (run_iteration sm u1).1 ta ea).sm u2).1
        tb eb).posted = false ∧
    (dispatch (run_iteration (dispatch (run_iteration sm u1).1 ta ea).sm u2).1
        tb eb).outcome = .skipped .already_handled := by
  have hmax1 : (run_iteration sm u1).1.max_memory_size = sm.max_memory_size :=
    run_iteration_max sm u1
  have hlen1 : (run_iteration sm u1).1.processed_ids.length ≤
      sm.processed_ids.length + u1.length := run_iteration_sm_length sm u1
  have hmemA : pyStr ta.id ∈
      (dispatch (run_iteration sm u1).1 ta ea).sm.processed_ids :=
    dispatch_replied_marked (run_iteration sm u1).1 ta ea hrep
  have hmaxA : (dispatch (run_iteration sm u1).1 ta ea).sm.max_memory_size =
      sm.max_memory_size := by
    rw [dispatch_max, hmax1]
  have hlenA : (dispatch (run_iteration sm u1).1 ta ea).sm.processed_ids.length ≤
      sm.processed_ids.length + u1.length + 1 := by
    have := dispatch_length_le (run_iteration sm u1).1 ta ea
    omega
  have hmem2 : pyStr ta.id ∈
      (run_iteration (dispatch (run_iteration sm u1).1 ta ea).sm u2).1.processed_ids := by
    apply run_iteration_mem _ _ _ hmemA
    rw [hmaxA]
    omega
  have hproc : ((run_iteration (dispatch (run_iteration sm u1).1 ta ea).sm u2).1).is_processed
      (.pstr (pyStr tb.id)) = true := by
    show ((run_iteration _ u2).1.processed_ids.contains (pyStr tb.id)) = true
    rw [hid]
    exact contains_iff_mem.mpr hmem2
  rw [dispatch_of_is_processed _ tb eb hproc]
  exact ⟨rfl, rfl⟩

/-- Witness for C1: a one-item run that replies, then a second dispatch of the
same identifier, which does not post. -/
theorem noticed_at_most_one_post_witness :
    exSm.processed_ids.length +
        (([] : List (Tweet × DispatchEnv)).length + 1 +
          ([] : List (Tweet × DispatchEnv)).length) ≤ exSm.max_memory_size ∧
    (dispatch (run_iteration exSm []).1 (exTweet "t9" "hello") exEnvSuccess).outcome
        = .replied ∧
    (dispatch
        (run_iteration
          (dispatch (run_iteration exSm []).1 (exTweet "t9" "hello") exEnvSuccess).sm []).1
        (exTweet "t9" "hello") exEnvSuccess).posted = false :=
  ⟨by decide, by decide,
    (noticed_at_most_one_post exSm [] [] (exTweet "t9" "hello") (exTweet "t9" "hello")
      exEnvSuccess exEnvSuccess (by decide) rfl (by decide)).1⟩

/-- C3: the processed set never exceeds the configured capacity — after any
sequence of mark_processed calls from a within-capacity state, and after any
load; marking an already-present identifier is a no-op; and inserting a new
identifier into a full store evicts exactly one existing member before the
insert. -/
theorem noticed_bounded_memory :
    (∀ (sm : StateManager) (ids : List (Option PyVal)),
        0 < sm.max_memory_size →
        sm.processed_ids.length ≤ sm.max_memory_size →
        (ids.foldl StateManager.mark_processed sm).processed_ids.length ≤
          sm.max_memory_size) ∧
    (∀ (sm : StateManager) (fs : FileSys),
        (sm.load fs).1.processed_ids.length ≤ sm.max_memory_size) ∧
    (∀ (sm : StateManager) (v : PyVal),
        sm.is_processed v = true → sm.mark_processed (some v) = sm) ∧
    (∀ (sm : StateManager) (v : PyVal),
        0 < sm.max_memory_size →
        sm.is_processed v = false →
        sm.max_memory_size ≤ sm.processed_ids.length →
        ∃ e ∈ sm.processed_ids,
          (sm.mark_processed (some v)).processed_ids =
            pyStr v :: sm.processed_ids.erase e) := by
  refine ⟨?_, ?_, ?_, ?_⟩
  · intro sm ids
    induction ids generalizing sm with
    | nil =>
      intro _ hlen
      simpa using hlen
    | cons i rest ih =>
      intro hpos hlen
      simp only [List.foldl_cons]
      have h1 := mark_processed_length_le_max sm i hpos hlen
      have h2 := ih (sm.mark_processed i)
        (by rw [mark_processed_max]; exact hpos)
        (by rw [mark_processed_max]; exact h1)
      rw [mark_processed_max] at h2
      exact h2
  · intro sm fs
    obtain ⟨sf, others⟩ := fs
    cases sf <;> (simp [StateManager.load]; try omega)
  · intro sm v h
    exact mark_processed_noop sm v h
  · intro sm v hpos hnp hfull
    have hcont : sm.processed_ids.contains (pyStr v) = false := hnp
    cases hlist : sm.processed_ids with
    | nil =>
      rw [hlist] at hfull
      simp at hfull
      omega
    | cons hd tl =>
      refine ⟨hd, List.mem_cons_self _ _, ?_⟩
      rw [List.erase_cons_head]
      rw [StateManager.mark_processed]
      dsimp only
      rw [if_neg (by rw [hcont]; simp), if_pos hfull]
      simp [hlist]

/-- Witness for C3: marking a fresh id on a full two-element store evicts one
member and stays at the capacity bound. -/
theorem noticed_bounded_memory_witness :
    (0 < exSmFull.max_memory_size ∧ exSmFull.is_processed (.pstr "zz") = false ∧
      exSmFull.max_memory_size ≤ exSmFull.processed_ids.length) ∧
    (∃ e ∈ exSmFull.processed_ids,
      (exSmFull.mark_processed (some (.pstr "zz"))).processed_ids =
        "zz" :: exSmFull.processed_ids.erase e) :=
  ⟨⟨by decide, by decide, by decide⟩,
    noticed_bounded_memory.2.2.2 exSmFull (.pstr "zz") (by decide) (by decide) (by decide)⟩

/-- C5: for any processed set of size at most max_memory_size, saving and then
loading on a fresh store with the same path and capacity yields a set with
exactly the same members (order-independent set equality). -/
theorem noticed_round_trip_persistence (sm : StateManager) (m : Int)
    (hmax : (StateManager.init sm.path_stem sm.path_suffix m).max_memory_size =
      sm.max_memory_size)
    (hlen : sm.processed_ids.length ≤ sm.max_memory_size) (x : String) :
    (x ∈ ((StateManager.init sm.path_stem sm.path_suffix m).load
        ⟨sm.save, []⟩).1.processed_ids ↔ x ∈ sm.processed_ids) :=
  load_save_mem sm _ [] hmax hlen x

/-- Witness for C5 on a concrete two-element store of capacity 3. -/
theorem noticed_round_trip_persistence_witness :
    ((StateManager.init exSmTwo.path_stem exSmTwo.path_suffix 3).max_memory_size =
      exSmTwo.max_memory_size) ∧
    exSmTwo.processed_ids.length ≤ exSmTwo.max_memory_size ∧
    ("a" ∈ ((StateManager.init exSmTwo.path_stem exSmTwo.path_suffix 3).load
        ⟨exSmTwo.save, []⟩).1.processed_ids ↔ "a" ∈ exSmTwo.processed_ids) :=
  ⟨by decide, by decide,
    noticed_round_trip_persistence exSmTwo 3 (by decide) (by decide) "a"⟩

/-- C6: loading a state file that is invalid JSON or a non-list JSON value
completes (total function), leaves the processed set empty, and renames the
original file aside — its content survives under a fresh backup name built
from the reason suffix, the first counter-free candidate being used. -/
theorem noticed_malformed_file_recovery (sm : StateManager) (fs : FileSys) (reason : String)
    (hmal : (fs.state_file = .invalidJson ∧ reason = "json_decode_error") ∨
            (fs.state_file = .jsonNonList ∧ reason = "invalid_format")) :
    (sm.load fs).1.processed_ids = [] ∧
    (sm.load fs).2.state_file = .absent ∧
    (sm.load fs).2.others =
      (findBackupName sm.path_stem sm.path_suffix reason (fs.others.map Prod.fst),
        fs.state_file) :: fs.others ∧
    findBackupName sm.path_stem sm.path_suffix reason (fs.others.map Prod.fst) ∉
      fs.others.map Prod.fst ∧
    (∃ k, findBackupName sm.path_stem sm.path_suffix reason (fs.others.map Prod.fst) =
          backupCandidate sm.path_stem sm.path_suffix reason k) ∧
    (backupCandidate sm.path_stem sm.path_suffix reason 0 ∉ fs.others.map Prod.fst →
      findBackupName sm.path_stem sm.path_suffix reason (fs.others.map Prod.fst) =
        backupCandidate sm.path_stem sm.path_suffix reason 0) := by
  obtain ⟨sf, others⟩ := fs
  rcases hmal with ⟨hsf, hreason⟩ | ⟨hsf, hreason⟩ <;>
    simp only at hsf <;> subst hsf <;> subst hreason <;>
    exact ⟨rfl, rfl, rfl, findBackupName_not_mem _ _ _ _, findBackupName_shape _ _ _ _,
      fun h0 => findBackupName_zero _ _ _ _ h0⟩

/-- Witness for C6: loading an invalid-JSON state file with an empty directory
backs the file up under the zero-counter candidate name and starts empty. -/
theorem noticed_malformed_file_recovery_witness :
    (exSm.load exFsBad).1.processed_ids = [] ∧
    (exSm.load exFsBad).2.state_file = .absent ∧
    (exSm.load exFsBad).2.others =
      [("state.json.json_decode_error.bak", FileContent.invalidJson)] := by
  have h := noticed_malformed_file_recovery exSm exFsBad "json_decode_error"
    (Or.inl ⟨rfl, rfl⟩)
  exact ⟨h.1, h.2.1, by decide⟩

/-- C9: the number of pacing sleeps of an iteration equals the number of
Replied outcomes among all but the last item of the batch — a delay happens
only after a successful post and only when more items remain; in particular a
3-item all-success batch sleeps exactly twice and never after the last item. -/
theorem noticed_pacing :
    (∀ (sm : StateManager) (steps : List (Tweet × DispatchEnv)),
        (run_iteration sm steps).2.2 =
          (run_iteration sm steps).2.1.dropLast.countP (fun o => decide (o = .replied))) ∧
    (run_iteration exSm exBatch3).2.1 = [.replied, .replied, .replied] ∧
    (run_iteration exSm exBatch3).2.2 = 2 :=
  ⟨run_iteration_sleeps_eq, by decide, by decide⟩

/-- C10: the state store canonicalizes identifiers through str(): after
marking x, any y with str(y) = str(x) is reported processed, both in memory
and after a save/load cycle onto a fresh store of the same capacity. -/
theorem noticed_identifier_canonicalization (sm sm2 : StateManager) (x y : PyVal)
    (hxy : pyStr y = pyStr x)
    (hlt : sm.processed_ids.length < sm.max_memory_size)
    (hmax : sm2.max_memory_size = sm.max_memory_size) :
    (sm.mark_processed (some x)).is_processed y = true ∧
    (sm2.load ⟨(sm.mark_processed (some x)).save, []⟩).1.is_processed y = true := by
  have hmem : pyStr x ∈ (sm.mark_processed (some x)).processed_ids :=
    mark_processed_mem_self sm x
  constructor
  · rw [StateManager.is_processed, hxy]
    exact contains_iff_mem.mpr hmem
  · rw [StateManager.is_processed, hxy]
    apply contains_iff_mem.mpr
    have hmax2 : sm2.max_memory_size = (sm.mark_processed (some x)).max_memory_size := by
      rw [hmax, mark_processed_max]
    have hlen2 : (sm.mark_processed (some x)).processed_ids.length ≤
        (sm.mark_processed (some x)).max_memory_size := by
      rw [mark_processed_max]
      have := mark_processed_length_le sm (some x)
      omega
    exact (load_save_mem _ sm2 [] hmax2 hlen2 (pyStr x)).mpr hmem

/-- Witness for C10: the int 42 and the string "42" denote the same
identifier, in memory and across a save/load cycle. -/
theorem noticed_identifier_canonicalization_witness :
    pyStr (.pstr "42") = pyStr (.pint 42) ∧
    (exSm.mark_processed (some (.pint 42))).is_processed (.pstr "42") = true ∧
    (exSm.load ⟨(exSm.mark_processed (some (.pint 42))).save, []⟩).1.is_processed
      (.pstr "42") = true := by
  have h := noticed_identifier_canonicalization exSm exSm (.pint 42) (.pstr "42")
    (by decide) (by decide) rfl
  exact ⟨by decide, h.1, h.2⟩

end Noticed
